import Mathlib

/-!
A shallow embedding of `src/converter.py` (TeleScan2Coe): an XML-embedded
hexadecimal payload is validated and re-emitted as a Vivado COE document.
Strings are modelled as `List Char`; Python slices `s[a:b]` become
`(s.drop a).take b - a`; exceptions become `Except`.
-/

namespace Telescan2Coe

/-- The whitespace characters removed by Python's `str.strip()` (ASCII range;
the payloads at issue are ASCII hex text). -/
def isPySpace (c : Char) : Bool :=
  c = ' ' || c = '\t' || c = '\n' || c = '\r' || c = '\x0b' || c = '\x0c'

/-- Python `str.strip()`: remove leading and trailing whitespace only. -/
def pyStrip (s : List Char) : List Char :=
  ((s.dropWhile isPySpace).reverse.dropWhile isPySpace).reverse

/-- A character accepted by the regex `[0-9a-fA-F]` of `_validate_hex`. -/
def isHexDigitChar (c : Char) : Bool :=
  ('0' ≤ c && c ≤ '9') || ('a' ≤ c && c ≤ 'f') || ('A' ≤ c && c ≤ 'F')

/-- The `ValueError`s raised by `XMLFileReader`, distinguished by message. -/
inductive FormatError where
  | missingBytes : FormatError
  | lengthMismatch (actual expected : Nat) : FormatError
  | invalidChars : FormatError
  deriving DecidableEq, Repr

namespace XMLFileReader

/-- Model of `XMLFileReader._validate_hex`: length must be 8192 and the string must
fully match `[0-9a-fA-F]+`. -/
def validate_hex (data : List Char) : Except FormatError Unit :=
  if data.length ≠ 8192 then
    .error (.lengthMismatch data.length 8192)
  else if !data.isEmpty && data.all isHexDigitChar then
    .ok ()
  else
    .error .invalidChars

/-- Model of `XMLFileReader.read`, from the point where the `<bytes>` element has been
located: `text = none` models a missing `<bytes>` element or one whose
`.text` is `None` (ElementTree reports an empty element's text as `None`);
otherwise the text is stripped and validated, and the stripped string is
returned. -/
def read (text : Option (List Char)) : Except FormatError (List Char) :=
  match text with
  | none => .error .missingBytes
  | some t =>
    let hex_data := pyStrip t
    match validate_hex hex_data with
    | .error e => .error e
    | .ok _ => .ok hex_data

end XMLFileReader

/-- Uppercase hexadecimal digit, as produced by Python's `X` format. -/
def hexDigit (n : Nat) : Char :=
  if n < 10 then Char.ofNat (48 + n) else Char.ofNat (55 + n)

/-- Digit-accumulating loop for `toHexUpper`; the fuel argument makes the
recursion structural (fuel `n + 1` always suffices since a number has at
most `n + 1` hexadecimal digits). -/
def toHexUpperGo : Nat → Nat → List Char → List Char
  | 0, _, acc => acc
  | fuel + 1, n, acc =>
    if n < 16 then hexDigit n :: acc
    else toHexUpperGo fuel (n / 16) (hexDigit (n % 16) :: acc)

/-- Uppercase hexadecimal digits of `n`, most significant first. -/
def toHexUpper (n : Nat) : List Char :=
  toHexUpperGo (n + 1) n []

/-- Python's format spec `{:04X}`: uppercase hex, zero-padded to width 4. -/
def fmt04X (n : Nat) : List Char :=
  List.replicate (4 - (toHexUpper n).length) '0' ++ toHexUpper n

namespace TeleScanConverter

/-- Model of `TeleScanConverter._format_chunk`: split a 32-character chunk into 4
groups of 8, join with commas, add the terminator and a newline. -/
def format_chunk (chunk : List Char) (is_last : Bool) : List Char :=
  let parts := (List.range 4).map (fun i => (chunk.drop (i * 8)).take 8)
  let terminator := if is_last then ';' else ','
  List.intercalate [','] parts ++ [terminator, '\n']

/-- The f-string `f"\n; \x7b(idx // 16) * 256:04X\x7d\n"` emitted before each
16-chunk section. -/
def section_comment (idx : Nat) : List Char :=
  '\n' :: ';' :: ' ' :: fmt04X ((idx / 16) * 256) ++ ['\n']

/-- Model of `TeleScanConverter._chunk_generator`: the list of strings appended to
`buffer`, in order. -/
def chunk_generator (hex_data : List Char) : List (List Char) :=
  let total_chunks := hex_data.length / 32
  (List.range total_chunks).flatMap (fun idx =>
    (if idx % 16 = 0 then [section_comment idx] else []) ++
      [format_chunk ((hex_data.drop (idx * 32)).take 32)
        (idx == total_chunks - 1)])

/-- Model of `TeleScanConverter._create_body`: `''.join(chunks)`. -/
def create_body (hex_data : List Char) : List Char :=
  (chunk_generator hex_data).flatten

/-- Model of `TeleScanConverter._create_header`, with the wall-clock timestamp string
passed as a parameter. -/
def create_header (srcName tstamp : List Char) : List Char :=
  "; TeleScan to COE Conversion\n; Source: ".toList ++ srcName ++
    "\n; Generated: ".toList ++ tstamp ++
    "\n\nmemory_initialization_radix=16;\nmemory_initialization_vector=\n".toList

/-- Model of `TeleScanConverter._generate_coe_content`: header ++ body. -/
def generate_coe_content (hex_data srcName tstamp : List Char) : List Char :=
  create_header srcName tstamp ++ create_body hex_data

/-- The formatted chunk lines emitted by `_chunk_generator`, in order
(the buffer entries other than the section comments). -/
def data_lines (hex_data : List Char) : List (List Char) :=
  let total_chunks := hex_data.length / 32
  (List.range total_chunks).map (fun idx =>
    format_chunk ((hex_data.drop (idx * 32)).take 32)
      (idx == total_chunks - 1))

/-- The header text preceding the embedded timestamp. -/
def headPart (srcName : List Char) : List Char :=
  "; TeleScan to COE Conversion\n; Source: ".toList ++ srcName ++
    "\n; Generated: ".toList

/-- Everything following the embedded timestamp: the rest of the header and
the whole body. -/
def tailPart (hex_data : List Char) : List Char :=
  "\n\nmemory_initialization_radix=16;\nmemory_initialization_vector=\n".toList ++
    create_body hex_data

/-- Model of `TeleScanConverter.convert`: `reader.read` → `_generate_coe_content` →
`writer.write`, each stage's exception aborting the rest. The writer is
modelled by the outcome function `write`; the second component of the result
records the contents the writer was invoked with ( `[]` means the writer was
never called and the destination is untouched). The wall-clock timestamp is
the parameter `tstamp`. -/
def convert {ε : Type} (text : Option (List Char)) (srcName tstamp : List Char)
    (write : List Char → Except ε Unit) :
    Except (Sum FormatError ε) Unit × List (List Char) :=
  match XMLFileReader.read text with
  | .error e => (.error (.inl e), [])
  | .ok hex_data =>
    let coe_content := generate_coe_content hex_data srcName tstamp
    match write coe_content with
    | .error e => (.error (.inr e), [coe_content])
    | .ok _ => (.ok (), [coe_content])

end TeleScanConverter

/-- Modelled from the spec's words (§4.2): the section base address
`sectionIndex × 256` rendered "in 4-digit uppercase hexadecimal" — its four
base-16 digits, most significant first. Used to check the address comments
the code emits. -/
def spec_hex4 (n : Nat) : List Char :=
  [hexDigit (n / 4096 % 16), hexDigit (n / 256 % 16),
    hexDigit (n / 16 % 16), hexDigit (n % 16)]

/-! ## Lemmas about characters and stripping -/

/-- A whitespace character is not a hex digit. -/
lemma space_not_hex {c : Char} (h : isPySpace c = true) :
    isHexDigitChar c = false := by
  simp [isPySpace] at h
  rcases h with ((((h | h) | h) | h) | h) | h <;> subst h <;> decide

/-- A hex digit is none of the separator characters of a data line. -/
lemma hex_keep {c : Char} (h : isHexDigitChar c = true) :
    (!(c == ',' || c == ';' || c == '\n')) = true := by
  have h1 : c ≠ ',' ∧ c ≠ ';' ∧ c ≠ '\n' := by
    refine ⟨?_, ?_, ?_⟩ <;> intro he <;> subst he <;> exact absurd h (by decide)
  simp [beq_iff_eq, h1.1, h1.2.1, h1.2.2]

/-- The function `dropWhile` is the identity when the head fails the predicate. -/
lemma dropWhile_eq_self_of_head {p : Char → Bool} {l : List Char} {c : Char}
    (h : l.head? = some c) (hp : p c = false) : l.dropWhile p = l := by
  cases l with
  | nil => rfl
  | cons a t =>
    simp only [List.head?_cons, Option.some_inj] at h
    subst h
    simp [List.dropWhile_cons, hp]

/-- Stripping does nothing when both ends are non-whitespace. -/
lemma pyStrip_eq_self {t : List Char} {a b : Char}
    (hh : t.head? = some a) (ha : isPySpace a = false)
    (hl : t.getLast? = some b) (hb : isPySpace b = false) : pyStrip t = t := by
  unfold pyStrip
  rw [dropWhile_eq_self_of_head hh ha,
    dropWhile_eq_self_of_head (by rw [List.head?_reverse]; exact hl) hb]
  exact List.reverse_reverse t

/-- Stripping an all-whitespace string yields the empty string. -/
lemma pyStrip_nil_of_all_space {t : List Char}
    (h : ∀ c ∈ t, isPySpace c = true) : pyStrip t = [] := by
  unfold pyStrip
  have h1 : t.dropWhile isPySpace = [] := by
    rw [List.dropWhile_eq_nil_iff]
    intro x hx
    exact h x hx
  simp [h1]

/-! ## Structural lemmas about the generated body -/

namespace TeleScanConverter

/-- A `flatMap` over `range (16 * n)` splits into `n` sections of 16. -/
lemma range_flatMap_sections {α : Type} (f : Nat → List α) (n : Nat) :
    (List.range (16 * n)).flatMap f =
      (List.range n).flatMap (fun s =>
        (List.range 16).flatMap (fun j => f (16 * s + j))) := by
  induction n with
  | zero => simp
  | succ k ih =>
    have h1 : List.range (k + 1) = List.range k ++ [k] := List.range_succ k
    rw [h1, List.flatMap_append, ← ih,
      show 16 * (k + 1) = 16 * k + 16 by ring, List.range_add,
      List.flatMap_append, List.flatMap_map]
    simp

/-- Within one 16-chunk section, the comment fires exactly at offset 0. -/
lemma flatMap_section {α : Type} (sc g : Nat → List α) (s : Nat) :
    (List.range 16).flatMap (fun j =>
        (if (16 * s + j) % 16 = 0 then [sc (16 * s + j)] else []) ++
          [g (16 * s + j)]) =
      sc (16 * s) :: (List.range 16).map (fun j => g (16 * s + j)) := by
  have e : ∀ j : Nat, (16 * s + j) % 16 = j % 16 := fun j => by omega
  have h16 : List.range 16 = [0, 1, 2, 3, 4, 5, 6, 7, 8, 9, 10, 11, 12, 13, 14, 15] := by
    decide
  rw [h16]
  simp [List.flatMap_cons, e]

/-- Master decomposition: for an 8192-character payload the buffer is 16
sections, each a section comment followed by 16 formatted chunks. -/
lemma chunk_generator_sections (hex : List Char) (h : hex.length = 8192) :
    chunk_generator hex =
      (List.range 16).flatMap (fun s =>
        section_comment (16 * s) ::
          (List.range 16).map (fun j =>
            format_chunk ((hex.drop ((16 * s + j) * 32)).take 32)
              ((16 * s + j) == 255))) := by
  unfold chunk_generator
  simp only [h]
  norm_num
  rw [show (256 : Nat) = 16 * 16 by norm_num, range_flatMap_sections]
  refine List.flatMap_congr ?_
  intro s _
  exact flatMap_section section_comment
    (fun idx => format_chunk ((hex.drop (idx * 32)).take 32) (idx == 255)) s

/-- Unfolding `format_chunk`, written out as the four 8-character groups. -/
lemma format_chunk_eq (chunk : List Char) (b : Bool) :
    format_chunk chunk b =
      chunk.take 8 ++ [','] ++ (chunk.drop 8).take 8 ++ [','] ++
        (chunk.drop 16).take 8 ++ [','] ++ (chunk.drop 24).take 8 ++
        [if b then ';' else ',', '\n'] := by
  have h4 : List.range 4 = [0, 1, 2, 3] := by decide
  simp [format_chunk, h4, List.intercalate, List.intersperse]

/-- The four groups of a 32-character chunk concatenate back to the chunk. -/
lemma groups_join (chunk : List Char) (h32 : chunk.length = 32) :
    chunk.take 8 ++ ((chunk.drop 8).take 8 ++
      ((chunk.drop 16).take 8 ++ (chunk.drop 24).take 8)) = chunk := by
  have h1 : chunk.take 32 = chunk := List.take_of_length_le (by omega)
  conv_rhs => rw [← h1]
  rw [show (32 : Nat) = 8 + 24 by norm_num, List.take_add]
  congr 1
  rw [show (24 : Nat) = 8 + 16 by norm_num, List.take_add, List.drop_drop]
  congr 1
  rw [show (16 : Nat) = 8 + 8 by norm_num, List.take_add, List.drop_drop]

/-- Concatenating the 32-character slices of a `32 * n`-character list, in
order, reproduces the list. -/
lemma flatten_chunks (n : Nat) : ∀ l : List Char, l.length = 32 * n →
    ((List.range n).map (fun i => (l.drop (i * 32)).take 32)).flatten = l := by
  induction n with
  | zero =>
    intro l hl
    simp only [Nat.mul_zero] at hl
    simp [List.eq_nil_of_length_eq_zero hl]
  | succ k ih =>
    intro l hl
    rw [List.range_succ_eq_map, List.map_cons, List.map_map, List.flatten_cons]
    have h2 : (fun i => (l.drop (i * 32)).take 32) ∘ Nat.succ
        = fun i => ((l.drop 32).drop (i * 32)).take 32 := by
      funext i
      simp only [Function.comp, List.drop_drop]
      have h3 : Nat.succ i * 32 = 32 + i * 32 := by omega
      rw [h3]
    rw [h2, ih (l.drop 32) (by rw [List.length_drop, hl]; omega)]
    simp only [Nat.zero_mul, List.drop_zero]
    exact List.take_append_drop 32 l

/-- Line-ending and newline statistics of a formatted chunk line, for a
chunk made of hex digits. -/
lemma format_chunk_stats (chunk : List Char) (b : Bool)
    (hc : ∀ c ∈ chunk, isHexDigitChar c = true) :
    (format_chunk chunk b).getLast? = some '\n' ∧
    (format_chunk chunk b).count '\n' = 1 ∧
    (format_chunk chunk b).dropLast.getLast? = some (if b then ';' else ',') := by
  rw [format_chunk_eq]
  have hsubD : ∀ n m : Nat, ((chunk.drop n).take m).count '\n' = 0 := by
    intro n m
    rw [List.count_eq_zero]
    intro hmem
    exact absurd (hc _ (List.mem_of_mem_drop (List.mem_of_mem_take hmem)))
      (by decide)
  have hsubT : ∀ m : Nat, (chunk.take m).count '\n' = 0 := by
    intro m
    rw [List.count_eq_zero]
    intro hmem
    exact absurd (hc _ (List.mem_of_mem_take hmem)) (by decide)
  refine ⟨?_, ?_, ?_⟩
  · rw [show ([if b then ';' else ',', '\n'] : List Char)
        = [if b then ';' else ','] ++ ['\n'] from rfl, ← List.append_assoc,
      List.getLast?_concat]
  · cases b <;> simp [List.count_append, hsubD, hsubT, List.count_cons]
  · rw [show ([if b then ';' else ',', '\n'] : List Char)
        = [if b then ';' else ','] ++ ['\n'] from rfl, ← List.append_assoc,
      List.dropLast_concat, List.getLast?_concat]

/-- A data line with hex-digit content, filtered of separators, terminator
and newline, is exactly its chunk. -/
lemma filter_format_chunk (chunk : List Char) (b : Bool)
    (hc : ∀ c ∈ chunk, isHexDigitChar c = true) (h32 : chunk.length = 32) :
    (format_chunk chunk b).filter
        (fun c => !(c == ',' || c == ';' || c == '\n')) = chunk := by
  rw [format_chunk_eq]
  have hkeepD : ∀ n m : Nat, ((chunk.drop n).take m).filter
      (fun c => !(c == ',' || c == ';' || c == '\n')) = (chunk.drop n).take m := by
    intro n m
    rw [List.filter_eq_self]
    intro a ha
    exact hex_keep (hc a (List.mem_of_mem_drop (List.mem_of_mem_take ha)))
  have hkeepT : ∀ m : Nat, (chunk.take m).filter
      (fun c => !(c == ',' || c == ';' || c == '\n')) = chunk.take m := by
    intro m
    rw [List.filter_eq_self]
    intro a ha
    exact hex_keep (hc a (List.mem_of_mem_take ha))
  cases b <;>
    simp only [List.filter_append, hkeepD, hkeepT, List.filter_cons,
      List.filter_nil] <;>
    simp <;>
    exact groups_join chunk h32

/-- The formatted chunk lines of an 8192-character payload. -/
lemma data_lines_eq (hex : List Char) (h : hex.length = 8192) :
    data_lines hex = (List.range 256).map (fun i =>
      format_chunk ((hex.drop (i * 32)).take 32) (i == 255)) := by
  unfold data_lines
  simp only [h]

end TeleScanConverter

/-! ## Claims about the generated body -/

open TeleScanConverter

/-- Claim C3: for every valid 8192-character hex payload the generated body
partitions the payload into 256 chunks of 32 characters, consumed in order
with no overlap and no gaps (the data line of global index `16*s + j`
formats the slice `[32*(16*s+j), 32*(16*s+j) + 32)`), grouped into 16
sections of 16 data lines each, and every data line consists of exactly 4
eight-character groups. -/
theorem body_partition (hex : List Char) (h : hex.length = 8192) :
    chunk_generator hex =
      (List.range 16).flatMap (fun s =>
        section_comment (16 * s) ::
          (List.range 16).map (fun j =>
            format_chunk ((hex.drop ((16 * s + j) * 32)).take 32)
              ((16 * s + j) == 255))) ∧
    (data_lines hex).length = 256 ∧
    (∀ i : Nat, i < 256 → ((hex.drop (i * 32)).take 32).length = 32) ∧
    (∀ chunk : List Char, ∀ b : Bool, chunk.length = 32 →
      format_chunk chunk b =
        chunk.take 8 ++ [','] ++ (chunk.drop 8).take 8 ++ [','] ++
          (chunk.drop 16).take 8 ++ [','] ++ (chunk.drop 24).take 8 ++
          [if b then ';' else ',', '\n'] ∧
      (∀ i : Nat, i < 4 → ((chunk.drop (i * 8)).take 8).length = 8)) := by
  refine ⟨chunk_generator_sections hex h, ?_, ?_, ?_⟩
  · rw [data_lines_eq hex h]
    simp
  · intro i hi
    simp only [List.length_take, List.length_drop, h]
    omega
  · intro chunk b h32
    refine ⟨format_chunk_eq chunk b, ?_⟩
    intro i hi
    simp only [List.length_take, List.length_drop, h32]
    omega

/-- Instance of Claim C3's theorem at the all-zero payload. -/
theorem body_partition_witness :
    (List.replicate 8192 '0' : List Char).length = 8192 ∧
    chunk_generator (List.replicate 8192 '0') =
      (List.range 16).flatMap (fun s =>
        section_comment (16 * s) ::
          (List.range 16).map (fun j =>
            format_chunk
              (((List.replicate 8192 '0' : List Char).drop
                ((16 * s + j) * 32)).take 32)
              ((16 * s + j) == 255))) :=
  ⟨by rw [List.length_replicate], (body_partition (List.replicate 8192 '0') (by rw [List.length_replicate])).1⟩

/-- Claim C4: for every valid 8192-character hex payload there are 256 data
lines; line 255 ends (before its single terminating newline) with `;` and
every other line ends with `,`; every data line carries exactly one newline,
at its end; and each section-comment entry is newline-terminated text
(a blank line and a comment line, never `;`-terminated). -/
theorem last_line_semicolon (hex : List Char) (h : hex.length = 8192)
    (hhex : ∀ c ∈ hex, isHexDigitChar c = true) :
    (data_lines hex).length = 256 ∧
    (∀ i : Nat, (hi : i < (data_lines hex).length) →
      (data_lines hex)[i].getLast? = some '\n' ∧
      (data_lines hex)[i].count '\n' = 1 ∧
      (data_lines hex)[i].dropLast.getLast? =
        some (if i = 255 then ';' else ',')) ∧
    (∀ k : Nat, k < 16 →
      (section_comment (16 * k)).getLast? = some '\n' ∧
      (section_comment (16 * k)).count '\n' = 2) := by
  have hlen : (data_lines hex).length = 256 := by
    rw [data_lines_eq hex h]
    simp
  refine ⟨hlen, ?_, by decide⟩
  intro i hi
  have hi256 : i < 256 := by rw [hlen] at hi; exact hi
  have hline : (data_lines hex)[i] =
      format_chunk ((hex.drop (i * 32)).take 32) (i == 255) := by
    rw [List.getElem_of_eq (data_lines_eq hex h) hi]
    rw [List.getElem_map]
    congr 1 <;> rw [List.getElem_range]
  have hc : ∀ c ∈ (hex.drop (i * 32)).take 32, isHexDigitChar c = true :=
    fun c hcm => hhex c (List.mem_of_mem_drop (List.mem_of_mem_take hcm))
  obtain ⟨h1, h2, h3⟩ := format_chunk_stats ((hex.drop (i * 32)).take 32)
    (i == 255) hc
  rw [hline]
  refine ⟨h1, h2, ?_⟩
  rw [h3]
  by_cases h255 : i = 255
  · subst h255
    simp
  · simp [h255]

/-- Instance of Claim C4's theorem at the all-zero payload. -/
theorem last_line_semicolon_witness :
    (List.replicate 8192 '0' : List Char).length = 8192 ∧
    (data_lines (List.replicate 8192 '0')).length = 256 :=
  ⟨by rw [List.length_replicate], (last_line_semicolon (List.replicate 8192 '0') (by rw [List.length_replicate])
    (fun c hc => by rw [List.eq_of_mem_replicate hc]; decide)).1⟩

/-- Claim C5: for every valid 8192-character hex payload the generated body
emits, immediately before the 16 data lines of section `k`, the text
`"\n; XXXX\n"` — a blank line followed by a comment line — where `XXXX` is
`k * 256` written as its 4 base-16 digits in uppercase, for every
`k` in `0..15`. -/
theorem section_address_comments (hex : List Char) (h : hex.length = 8192) :
    chunk_generator hex =
      (List.range 16).flatMap (fun k =>
        (('\n' :: ';' :: ' ' :: spec_hex4 (k * 256)) ++ ['\n']) ::
          (List.range 16).map (fun j =>
            format_chunk ((hex.drop ((16 * k + j) * 32)).take 32)
              ((16 * k + j) == 255))) ∧
    (∀ k : Nat, k < 16 →
      section_comment (16 * k) =
        (('\n' :: ';' :: ' ' :: spec_hex4 (k * 256)) ++ ['\n']) ∧
      (spec_hex4 (k * 256)).length = 4) := by
  have hk : ∀ k : Nat, k < 16 →
      section_comment (16 * k) =
        (('\n' :: ';' :: ' ' :: spec_hex4 (k * 256)) ++ ['\n']) ∧
      (spec_hex4 (k * 256)).length = 4 := by decide
  constructor
  · rw [chunk_generator_sections hex h]
    refine List.flatMap_congr ?_
    intro k hkm
    rw [(hk k (List.mem_range.mp hkm)).1]
  · exact hk

/-- Instance of Claim C5's theorem at the all-zero payload. -/
theorem section_address_comments_witness :
    (List.replicate 8192 '0' : List Char).length = 8192 ∧
    chunk_generator (List.replicate 8192 '0') =
      (List.range 16).flatMap (fun k =>
        (('\n' :: ';' :: ' ' :: spec_hex4 (k * 256)) ++ ['\n']) ::
          (List.range 16).map (fun j =>
            format_chunk
              (((List.replicate 8192 '0' : List Char).drop
                ((16 * k + j) * 32)).take 32)
              ((16 * k + j) == 255))) :=
  ⟨by rw [List.length_replicate], (section_address_comments (List.replicate 8192 '0') (by rw [List.length_replicate])).1⟩

/-- Claim C6: round-trip — concatenating the 8-character groups of all data
lines in emission order, i.e. the data lines with the comma separators, the
terminator and the newline removed, reproduces the validated payload
character for character. -/
theorem roundtrip_groups (hex : List Char) (h : hex.length = 8192)
    (hhex : ∀ c ∈ hex, isHexDigitChar c = true) :
    ((data_lines hex).map (fun l =>
      l.filter (fun c => !(c == ',' || c == ';' || c == '\n')))).flatten
      = hex := by
  rw [data_lines_eq hex h, List.map_map]
  have hcong : ∀ i ∈ List.range 256,
      ((fun l => l.filter (fun c => !(c == ',' || c == ';' || c == '\n'))) ∘
        (fun i => format_chunk ((hex.drop (i * 32)).take 32) (i == 255))) i
        = (hex.drop (i * 32)).take 32 := by
    intro i hi
    have hc : ∀ c ∈ (hex.drop (i * 32)).take 32, isHexDigitChar c = true :=
      fun c hcm => hhex c (List.mem_of_mem_drop (List.mem_of_mem_take hcm))
    have h32 : ((hex.drop (i * 32)).take 32).length = 32 := by
      have hi256 : i < 256 := List.mem_range.mp hi
      simp only [List.length_take, List.length_drop, h]
      omega
    exact filter_format_chunk ((hex.drop (i * 32)).take 32) (i == 255) hc h32
  rw [List.map_congr_left hcong]
  exact flatten_chunks 256 hex (by omega)

/-- Instance of Claim C6's theorem at the all-zero payload. -/
theorem roundtrip_groups_witness :
    (List.replicate 8192 '0' : List Char).length = 8192 ∧
    ((data_lines (List.replicate 8192 '0')).map (fun l =>
      l.filter (fun c => !(c == ',' || c == ';' || c == '\n')))).flatten
      = List.replicate 8192 '0' :=
  ⟨by rw [List.length_replicate], roundtrip_groups (List.replicate 8192 '0') (by rw [List.length_replicate])
    (fun c hc => by rw [List.eq_of_mem_replicate hc]; decide)⟩

/-! ## Claims about the Reader -/

/-- Claim C1 counterexample: the text `"0"*4096 + "\n" + "0"*4096` is 8192
hex digits once all whitespace is removed, yet `read` rejects it with a
length error of 8193: `strip()` removes no interior whitespace. -/
theorem whitespace_stripping_counterexample :
    ((List.replicate 4096 '0' ++ '\n' :: List.replicate 4096 '0').filter
      (fun c => !isPySpace c)).length = 8192 ∧
    ((List.replicate 4096 '0' ++ '\n' :: List.replicate 4096 '0').filter
      (fun c => !isPySpace c)).all isHexDigitChar = true ∧
    XMLFileReader.read
      (some (List.replicate 4096 '0' ++ '\n' :: List.replicate 4096 '0')) =
      .error (.lengthMismatch 8193 8192) := by
  have hfil : (List.replicate 4096 '0' ++ '\n' :: List.replicate 4096 '0').filter
      (fun c => !isPySpace c)
      = List.replicate 4096 '0' ++ List.replicate 4096 '0' := by
    rw [List.filter_append, List.filter_replicate, List.filter_cons,
      List.filter_replicate,
      if_pos (show (!isPySpace '0') = true from by decide),
      if_neg (show ¬((!isPySpace '\n') = true) from by decide)]
  have hps : pyStrip (List.replicate 4096 '0' ++ '\n' :: List.replicate 4096 '0')
      = List.replicate 4096 '0' ++ '\n' :: List.replicate 4096 '0' := by
    refine pyStrip_eq_self (a := '0') (b := '0') ?_ (by decide) ?_ (by decide)
    · simp [-List.reduceReplicate, List.head?_append, List.head?_replicate]
    · simp [-List.reduceReplicate, List.getLast?_append, List.getLast?_cons,
        List.getLast?_replicate]
  refine ⟨by rw [hfil]; simp [-List.reduceReplicate],
    by rw [hfil]; simp [-List.reduceReplicate, List.all_append, List.all_replicate]; decide, ?_⟩
  have hlen : (pyStrip (List.replicate 4096 '0' ++ '\n' :: List.replicate 4096 '0')).length
      = 8193 := by
    rw [hps]
    simp [-List.reduceReplicate]
  simp [-List.reduceReplicate, XMLFileReader.read, XMLFileReader.validate_hex, hlen]

/-- Claim C1 (amended): `read` strips only leading and trailing whitespace,
so any payload text that still holds a whitespace character after the strip
— in particular 8192 hex digits interleaved with interior whitespace — is
rejected with a `FormatError` rather than accepted. -/
theorem strip_only_trims_ends (t : List Char)
    (hws : ∃ c ∈ pyStrip t, isPySpace c = true) :
    ∃ e, XMLFileReader.read (some t) = .error e := by
  by_cases hlen : (pyStrip t).length = 8192
  · refine ⟨.invalidChars, ?_⟩
    obtain ⟨c, hc, hcs⟩ := hws
    have hall : (pyStrip t).all isHexDigitChar = false :=
      List.all_eq_false.mpr ⟨c, hc, by rw [space_not_hex hcs]; decide⟩
    simp [XMLFileReader.read, XMLFileReader.validate_hex, hlen, hall]
  · refine ⟨.lengthMismatch (pyStrip t).length 8192, ?_⟩
    simp [XMLFileReader.read, XMLFileReader.validate_hex, hlen]

/-- Instance of Claim C1's amended theorem at `"0\n0"`. -/
theorem strip_only_trims_ends_witness :
    (∃ c ∈ pyStrip ['0', '\n', '0'], isPySpace c = true) ∧
    (∃ e, XMLFileReader.read (some ['0', '\n', '0']) = .error e) :=
  ⟨by decide, strip_only_trims_ends ['0', '\n', '0'] (by decide)⟩

/-- Claim C7: `read`'s validation order and classification — a missing (or
`None`-text, which is how an empty element is reported) payload element
gives the missing-element error; otherwise a stripped length other than 8192
gives the length error carrying actual and expected; otherwise any non-hex
character gives the invalid-character error; a valid payload is returned
as-is. -/
theorem reader_validation_order (t : List Char) :
    XMLFileReader.read none = .error .missingBytes ∧
    ((pyStrip t).length ≠ 8192 →
      XMLFileReader.read (some t) =
        .error (.lengthMismatch (pyStrip t).length 8192)) ∧
    ((pyStrip t).length = 8192 →
      (∃ c ∈ pyStrip t, isHexDigitChar c = false) →
      XMLFileReader.read (some t) = .error .invalidChars) ∧
    ((pyStrip t).length = 8192 →
      (∀ c ∈ pyStrip t, isHexDigitChar c = true) →
      XMLFileReader.read (some t) = .ok (pyStrip t)) := by
  refine ⟨rfl, ?_, ?_, ?_⟩
  · intro hlen
    simp [XMLFileReader.read, XMLFileReader.validate_hex, hlen]
  · intro hlen hbad
    obtain ⟨c, hc, hcf⟩ := hbad
    have hall : (pyStrip t).all isHexDigitChar = false :=
      List.all_eq_false.mpr ⟨c, hc, by rw [hcf]; decide⟩
    simp [XMLFileReader.read, XMLFileReader.validate_hex, hlen, hall]
  · intro hlen hall
    have hall' : (pyStrip t).all isHexDigitChar = true :=
      List.all_eq_true.mpr hall
    have hne : (pyStrip t).isEmpty = false := by
      rcases he : pyStrip t with _ | _
      · rw [he] at hlen
        simp at hlen
      · rfl
    simp [XMLFileReader.read, XMLFileReader.validate_hex, hlen, hall', hne]

/-- Instance of Claim C7's theorem at the all-zero payload: a valid payload
passes all three checks and is returned unchanged. -/
theorem reader_validation_order_witness :
    (pyStrip (List.replicate 8192 '0')).length = 8192 ∧
    XMLFileReader.read (some (List.replicate 8192 '0')) =
      .ok (pyStrip (List.replicate 8192 '0')) := by
  have hp : pyStrip (List.replicate 8192 '0') = List.replicate 8192 '0' :=
    pyStrip_eq_self (a := '0') (b := '0')
      (by simp [-List.reduceReplicate, List.head?_replicate]) (by decide)
      (by simp [-List.reduceReplicate, List.getLast?_replicate]) (by decide)
  refine ⟨by rw [hp, List.length_replicate], ?_⟩
  exact (reader_validation_order (List.replicate 8192 '0')).2.2.2
    (by rw [hp, List.length_replicate])
    (fun c hc => by rw [hp] at hc; rw [List.eq_of_mem_replicate hc]; decide)

/-- Claim C10: an existing payload element whose text is all whitespace is
stripped to the empty string and rejected with the length-mismatch error
reporting actual length 0 — not with the missing-element error. -/
theorem whitespace_only_payload (t : List Char) (hne : t ≠ [])
    (hws : ∀ c ∈ t, isPySpace c = true) :
    XMLFileReader.read (some t) = .error (.lengthMismatch 0 8192) := by
  have h0 : pyStrip t = [] := pyStrip_nil_of_all_space hws
  simp [XMLFileReader.read, XMLFileReader.validate_hex, h0]

/-- Instance of Claim C10's theorem at the one-space payload text. -/
theorem whitespace_only_payload_witness :
    ([' '] : List Char) ≠ [] ∧
    (∀ c ∈ ([' '] : List Char), isPySpace c = true) ∧
    XMLFileReader.read (some [' ']) = .error (.lengthMismatch 0 8192) :=
  ⟨by decide, by decide, whitespace_only_payload [' '] (by decide) (by decide)⟩

/-! ## Claims about the Generator's length handling and the Orchestrator -/

/-- Claim C2 counterexample: a 33-character input (not a multiple of 32) is
not rejected — the generator produces the same nonempty output as for the
32-character prefix, silently dropping the trailing character. -/
theorem chunk_truncation_counterexample :
    chunk_generator (List.replicate 33 '0')
      = chunk_generator (List.replicate 32 '0') ∧
    chunk_generator (List.replicate 33 '0') ≠ [] := by
  decide

/-- Claim C2 (amended): the generator never signals an error on an input
whose length is not a multiple of 32; it silently ignores the trailing
`length mod 32` characters, producing exactly the output of the truncated
input and `length / 32` data lines. -/
theorem chunk_generator_truncates (hex_data : List Char) :
    chunk_generator hex_data =
      chunk_generator (hex_data.take (32 * (hex_data.length / 32))) ∧
    (data_lines hex_data).length = hex_data.length / 32 := by
  constructor
  · have hq : (hex_data.take (32 * (hex_data.length / 32))).length
        = 32 * (hex_data.length / 32) := by
      rw [List.length_take]
      have h1 : hex_data.length / 32 * 32 ≤ hex_data.length :=
        Nat.div_mul_le_self hex_data.length 32
      omega
    have hq2 : 32 * (hex_data.length / 32) / 32 = hex_data.length / 32 :=
      Nat.mul_div_cancel_left _ (by norm_num)
    unfold chunk_generator
    simp only [hq, hq2]
    refine List.flatMap_congr ?_
    intro idx hidx
    have hlt : idx < hex_data.length / 32 := List.mem_range.mp hidx
    have hslice : ((hex_data.take (32 * (hex_data.length / 32))).drop
        (idx * 32)).take 32 = (hex_data.drop (idx * 32)).take 32 := by
      rw [List.drop_take, List.take_take]
      have h2 : min 32 (32 * (hex_data.length / 32) - idx * 32) = 32 := by
        omega
      rw [h2]
    rw [hslice]
  · unfold data_lines
    simp

/-- Claim C8: the Orchestrator sequences read → generate → write; a reader
failure propagates that very error and the writer is never invoked (the
invocation log stays empty, the destination untouched); after a successful
read the generated document is handed to the writer, whose error, if any,
propagates unchanged. -/
theorem convert_pipeline {ε : Type} (text : Option (List Char))
    (srcName tstamp : List Char) (write : List Char → Except ε Unit) :
    (∀ e, XMLFileReader.read text = .error e →
      convert text srcName tstamp write = (.error (.inl e), [])) ∧
    (∀ hex_data, XMLFileReader.read text = .ok hex_data →
      (∀ e, write (generate_coe_content hex_data srcName tstamp) = .error e →
        convert text srcName tstamp write =
          (.error (.inr e), [generate_coe_content hex_data srcName tstamp])) ∧
      (write (generate_coe_content hex_data srcName tstamp) = .ok () →
        convert text srcName tstamp write =
          (.ok (), [generate_coe_content hex_data srcName tstamp]))) := by
  refine ⟨?_, ?_⟩
  · intro e he
    simp [convert, he]
  · intro hex_data hok
    refine ⟨?_, ?_⟩
    · intro e he
      simp [convert, hok, he]
    · intro hw
      simp [convert, hok, hw]

/-- Instance of Claim C8's theorem: on a missing payload element the format
error propagates and the writer is never called. -/
theorem convert_pipeline_witness :
    XMLFileReader.read (none : Option (List Char)) = .error .missingBytes ∧
    @convert Unit none [] [] (fun _ => .ok ())
      = (.error (.inl .missingBytes), []) :=
  ⟨rfl, (@convert_pipeline Unit none [] [] (fun _ => .ok ())).1
    .missingBytes rfl⟩

/-- Claim C9: the Generator is deterministic apart from the timestamp — the
output is a fixed header prefix (determined by the source name), then the
timestamp verbatim, then a suffix determined by the payload alone; hence two
runs on the same payload and source name are byte-identical except for the
embedded timestamp. -/
theorem generator_deterministic (hex_data srcName t1 t2 : List Char) :
    generate_coe_content hex_data srcName t1
      = headPart srcName ++ t1 ++ tailPart hex_data ∧
    generate_coe_content hex_data srcName t2
      = headPart srcName ++ t2 ++ tailPart hex_data := by
  constructor <;>
    simp [generate_coe_content, create_header, headPart, tailPart]

end Telescan2Coe
